import Mathlib

/-!
# Trial-balance file reader: a verification of `file_handlers.py` (and one line of `processor.py`)

This file gives an executable shallow embedding of the repository's
file-format detection and parsing layer and proves/refutes the frozen
behavioural claims about it.

Conventions of the embedding:

* A Python `io.BytesIO` object is a `ByteStream`: an immutable byte list plus
  a read position.
* Python `str` values that flow through the detection heuristics are
  `List Char`; byte sequences are `List Nat` (each < 256).
* `pandas.DataFrame` is a column-name list plus rows of name-keyed cells;
  a cell is a string, a rational number (standing in for the float values
  appearing here, none of which exercise rounding), a boolean, or NaN.
* Fallible operations return `Except String _`; the error strings follow
  the source's messages.  Messages produced by third-party libraries
  (`pandas`, `json`, `xml.etree`) are modelled loosely (no theorem below
  inspects their text); messages produced by `file_handlers.py` itself
  (`"Unsupported file format: ..."`, `"Column ... must contain only numeric
  values"`, `"Error processing file: ..."`, ...) are modelled verbatim.
  `validate_dataframe` renders its missing-column set with Python's
  unspecified set iteration order; here the declared column order is used,
  and no theorem relies on the order inside that one message.
* Library routines invoked by the source (`utf-8` decoding, `json.loads`,
  `ElementTree` parsing, `csv.Sniffer`, `pd.read_csv`, `float`) are
  modelled executably at the fragment the source exercises; each model's
  doc comment states its scope.
-/

namespace TrialBalance

set_option maxRecDepth 100000

/-! ## Python string helpers -/

/-- The whitespace set of Python's `str.strip()` (ASCII part; the inputs
considered are ASCII). -/
def pyIsSpace (c : Char) : Bool :=
  c = ' ' || c = '\t' || c = '\n' || c = '\r' || c = Char.ofNat 11 || c = Char.ofNat 12

/-- Remove trailing characters satisfying `p` (Python `str.rstrip`). -/
def rstripWhile (p : Char → Bool) : List Char → List Char
  | [] => []
  | c :: cs =>
    let r := rstripWhile p cs
    if p c ∧ r = [] then [] else c :: r

/-- Python `str.strip()`: drop leading and trailing whitespace. -/
def pyStrip (cs : List Char) : List Char :=
  rstripWhile pyIsSpace (cs.dropWhile pyIsSpace)

/-- Python `str.split(sep)` for a one-character separator: splits on every
occurrence, keeping empty pieces (`"".split("\n") = [""]`). -/
def splitOnChar (sep : Char) : List Char → List (List Char)
  | [] => [[]]
  | c :: cs =>
    let r := splitOnChar sep cs
    if c = sep then [] :: r
    else
      match r with
      | h :: t => (c :: h) :: t
      | [] => [[c]]

/-! ## Byte streams (`io.BytesIO`) -/

/-- An in-memory byte stream: the buffer plus the current read position.
Models the `io.BytesIO` objects handed to `read_financial_file`. -/
structure ByteStream where
  data : List Nat
  pos : Nat
deriving DecidableEq

/-- `stream.read(n)`: the next `n` bytes (fewer at end of buffer), advancing
the position. -/
def ByteStream.read (f : ByteStream) (n : Nat) : List Nat × ByteStream :=
  ((f.data.drop f.pos).take n, ⟨f.data, min (f.pos + n) f.data.length⟩)

/-- `stream.seek(p)`. -/
def ByteStream.seek (f : ByteStream) (p : Nat) : ByteStream := ⟨f.data, p⟩

/-! ## UTF-8 decoding (Python `bytes.decode('utf-8')`, strict) -/

/-- Is `b` a UTF-8 continuation byte (`0x80..0xBF`)? -/
def utf8Cont (b : Nat) : Bool := 0x80 ≤ b && b ≤ 0xBF

/-- Strict UTF-8 decoding, fuel-indexed for structural totality (`fuel ≥
length` suffices; `utf8Decode` below supplies it).  Rejects continuation
bytes in lead position, overlong forms, surrogates and values beyond
`0x10FFFF`, as CPython's strict decoder does. -/
def utf8DecodeF : Nat → List Nat → Option (List Char)
  | _, [] => some []
  | 0, _ :: _ => none
  | fuel + 1, b :: bs =>
    if b < 0x80 then
      (utf8DecodeF fuel bs).map (Char.ofNat b :: ·)
    else if b < 0xC2 then none
    else if b ≤ 0xDF then
      match bs with
      | b1 :: bs2 =>
        if utf8Cont b1 then
          (utf8DecodeF fuel bs2).map (Char.ofNat ((b - 0xC0) * 0x40 + (b1 - 0x80)) :: ·)
        else none
      | [] => none
    else if b ≤ 0xEF then
      match bs with
      | b1 :: b2 :: bs3 =>
        let v := (b - 0xE0) * 0x1000 + (b1 - 0x80) * 0x40 + (b2 - 0x80)
        if utf8Cont b1 && utf8Cont b2 && decide (0x800 ≤ v) &&
            !(decide (0xD800 ≤ v) && decide (v ≤ 0xDFFF)) then
          (utf8DecodeF fuel bs3).map (Char.ofNat v :: ·)
        else none
      | _ => none
    else if b ≤ 0xF4 then
      match bs with
      | b1 :: b2 :: b3 :: bs4 =>
        let v := (b - 0xF0) * 0x40000 + (b1 - 0x80) * 0x1000 + (b2 - 0x80) * 0x40 + (b3 - 0x80)
        if utf8Cont b1 && utf8Cont b2 && utf8Cont b3 &&
            decide (0x10000 ≤ v) && decide (v ≤ 0x10FFFF) then
          (utf8DecodeF fuel bs4).map (Char.ofNat v :: ·)
        else none
      | _ => none
    else none

/-- Strict UTF-8 decoding of a byte list. -/
def utf8Decode (bs : List Nat) : Option (List Char) :=
  utf8DecodeF bs.length bs

/-! ## Numeric parsing (Python `float(...)` / pandas' numeric conversion)

Both `float()` (used by `parse_xml`) and pandas' element-wise numeric
conversion (used by `pd.to_numeric` and `pd.read_csv` type inference)
accept an optionally signed decimal with optional fraction and exponent,
surrounded by optional whitespace.  `inf`/`nan` spellings and digit
underscores are outside the modelled fragment (no input here uses them;
NA spellings are handled separately by `read_csv`'s NA list). -/

/-- Decimal digit test. -/
def isDigit (c : Char) : Bool := '0' ≤ c && c ≤ '9'

/-- Leading digit run and the rest. -/
def takeDigits : List Char → List Char × List Char
  | [] => ([], [])
  | c :: cs =>
    if isDigit c then
      let (ds, r) := takeDigits cs
      (c :: ds, r)
    else ([], c :: cs)

/-- Value of a digit run. -/
def digitsVal (ds : List Char) : Nat :=
  ds.foldl (fun a c => a * 10 + (c.toNat - '0'.toNat)) 0

/-- `10 ^ e` over `ℚ` for an integer exponent. -/
def pow10 (e : Int) : Rat :=
  if 0 ≤ e then ((10 : Rat) ^ e.toNat) else 1 / ((10 : Rat) ^ (-e).toNat)

/-- Parse an optional exponent part (`e`/`E`, optional sign, digits) and
require the remainder to be empty. -/
def parseExpTail (cs : List Char) : Option Int :=
  match cs with
  | [] => some 0
  | e :: cs1 =>
    if e = 'e' ∨ e = 'E' then
      let (esign, cs2) : Int × List Char :=
        match cs1 with
        | '+' :: r => (1, r)
        | '-' :: r => (-1, r)
        | r => (1, r)
      let (eds, rest) := takeDigits cs2
      if eds = [] ∨ rest ≠ [] then none
      else some (esign * (digitsVal eds : Int))
    else none

/-- Best-effort decimal parse of a trimmed string, as Python's `float`:
sign, integer digits, optional `.fraction`, optional exponent. -/
def pyFloat (cs0 : List Char) : Option Rat :=
  let cs := pyStrip cs0
  let (sign, cs1) : Rat × List Char :=
    match cs with
    | '+' :: r => (1, r)
    | '-' :: r => (-1, r)
    | r => (1, r)
  let (ids, cs2) := takeDigits cs1
  let (fds, cs3) :=
    match cs2 with
    | '.' :: r => takeDigits r
    | r => ([], r)
  if ids = [] ∧ fds = [] then none
  else if cs2 ≠ [] ∧ cs2.head? ≠ some '.' ∧ (parseExpTail cs2).isNone then none
  else
    let base : Rat :=
      (digitsVal ids : Rat) + (digitsVal fds : Rat) / ((10 : Rat) ^ fds.length)
    match cs2 with
    | '.' :: _ =>
      match parseExpTail cs3 with
      | some e => some (sign * base * pow10 e)
      | none => none
    | r =>
      match parseExpTail r with
      | some e => some (sign * base * pow10 e)
      | none => none

/-! ## JSON (`json.loads`, RFC-8259 grammar as accepted by Python's `json`)

The escape fragment covered is `\" \\ \/ \b \f \n \r \t \uXXXX`; Python's
non-standard `NaN`/`Infinity` extensions are outside the modelled fragment
(no claim input uses them). -/

/-- A parsed JSON document. -/
inductive JValue where
  | null
  | bool (b : Bool)
  | num (q : Rat)
  | str (s : String)
  | arr (xs : List JValue)
  | obj (fields : List (String × JValue))

/-- JSON structural whitespace. -/
def jIsWs (c : Char) : Bool := c = ' ' || c = '\t' || c = '\n' || c = '\r'

/-- Skip JSON whitespace. -/
def jSkipWs (cs : List Char) : List Char := cs.dropWhile jIsWs

/-- Hexadecimal digit value. -/
def hexDigit (c : Char) : Option Nat :=
  if '0' ≤ c ∧ c ≤ '9' then some (c.toNat - '0'.toNat)
  else if 'a' ≤ c ∧ c ≤ 'f' then some (c.toNat - 'a'.toNat + 10)
  else if 'A' ≤ c ∧ c ≤ 'F' then some (c.toNat - 'A'.toNat + 10)
  else none

/-- Parse the body of a JSON string (after the opening quote), returning the
string and the rest after the closing quote. -/
def jString : Nat → List Char → Option (List Char × List Char)
  | 0, _ => none
  | _ + 1, [] => none
  | fuel + 1, c :: cs =>
    if c = '"' then some ([], cs)
    else if c = '\\' then
      match cs with
      | [] => none
      | e :: cs1 =>
        let esc : Option (Char × List Char) :=
          if e = '"' then some ('"', cs1)
          else if e = '\\' then some ('\\', cs1)
          else if e = '/' then some ('/', cs1)
          else if e = 'b' then some (Char.ofNat 8, cs1)
          else if e = 'f' then some (Char.ofNat 12, cs1)
          else if e = 'n' then some ('\n', cs1)
          else if e = 'r' then some ('\r', cs1)
          else if e = 't' then some ('\t', cs1)
          else if e = 'u' then
            match cs1 with
            | h1 :: h2 :: h3 :: h4 :: cs2 =>
              match hexDigit h1, hexDigit h2, hexDigit h3, hexDigit h4 with
              | some a, some b, some c', some d =>
                some (Char.ofNat (((a * 16 + b) * 16 + c') * 16 + d), cs2)
              | _, _, _, _ => none
            | _ => none
          else none
        match esc with
        | some (ch, rest) => (jString fuel rest).map (fun (s, r) => (ch :: s, r))
        | none => none
    else if c.toNat < 0x20 then none
    else (jString fuel cs).map (fun (s, r) => (c :: s, r))

/-- Parse a JSON number per the RFC grammar (`-? int frac? exp?`,
no leading `+`, no leading zeros). -/
def jNumber (cs : List Char) : Option (Rat × List Char) :=
  let (sign, cs1) : Rat × List Char :=
    match cs with
    | '-' :: r => (-1, r)
    | r => (1, r)
  let intOk : Option (List Char × List Char) :=
    match cs1 with
    | '0' :: r => some (['0'], r)
    | c :: _ =>
      if isDigit c ∧ c ≠ '0' then some (takeDigits cs1) else none
    | [] => none
  match intOk with
  | none => none
  | some (ids, cs2) =>
    let frac : Option (List Char × List Char) :=
      match cs2 with
      | '.' :: r =>
        let (fds, r2) := takeDigits r
        if fds = [] then none else some (fds, r2)
      | r => some ([], r)
    match frac with
    | none => none
    | some (fds, cs3) =>
      let expPart : Option (Int × List Char) :=
        match cs3 with
        | e :: r =>
          if e = 'e' ∨ e = 'E' then
            let (esign, r1) : Int × List Char :=
              match r with
              | '+' :: r2 => (1, r2)
              | '-' :: r2 => (-1, r2)
              | r2 => (1, r2)
            let (eds, r3) := takeDigits r1
            if eds = [] then none else some (esign * (digitsVal eds : Int), r3)
          else some (0, e :: r)
        | [] => some (0, [])
      match expPart with
      | none => none
      | some (e, cs4) =>
        let base : Rat :=
          (digitsVal ids : Rat) + (digitsVal fds : Rat) / ((10 : Rat) ^ fds.length)
        some (sign * base * pow10 e, cs4)

mutual

/-- Parse one JSON value from the input (leading whitespace allowed),
fuel-indexed for totality. -/
def jValueF : Nat → List Char → Option (JValue × List Char)
  | 0, _ => none
  | fuel + 1, cs0 =>
    match jSkipWs cs0 with
    | [] => none
    | c :: cs =>
      if c = '{' then
        match jSkipWs cs with
        | '}' :: r => some (.obj [], r)
        | r => jMembersF fuel r []
      else if c = '[' then
        match jSkipWs cs with
        | ']' :: r => some (.arr [], r)
        | r => jItemsF fuel r []
      else if c = '"' then
        (jString (cs.length + 1) cs).map (fun (s, r) => (.str (String.mk s), r))
      else if c = 't' then
        match cs with
        | 'r' :: 'u' :: 'e' :: r => some (.bool true, r)
        | _ => none
      else if c = 'f' then
        match cs with
        | 'a' :: 'l' :: 's' :: 'e' :: r => some (.bool false, r)
        | _ => none
      else if c = 'n' then
        match cs with
        | 'u' :: 'l' :: 'l' :: r => some (.null, r)
        | _ => none
      else
        (jNumber (c :: cs)).map (fun (q, r) => (.num q, r))

/-- Parse the members of a JSON object after its first key position. -/
def jMembersF : Nat → List Char → List (String × JValue) →
    Option (JValue × List Char)
  | 0, _, _ => none
  | fuel + 1, cs, acc =>
    match jSkipWs cs with
    | '"' :: cs1 =>
      match jString (cs1.length + 1) cs1 with
      | none => none
      | some (key, cs2) =>
        match jSkipWs cs2 with
        | ':' :: cs3 =>
          match jValueF fuel cs3 with
          | none => none
          | some (v, cs4) =>
            match jSkipWs cs4 with
            | ',' :: cs5 => jMembersF fuel cs5 (acc ++ [(String.mk key, v)])
            | '}' :: cs5 => some (.obj (acc ++ [(String.mk key, v)]), cs5)
            | _ => none
        | _ => none
    | _ => none

/-- Parse the items of a JSON array after its first item position. -/
def jItemsF : Nat → List Char → List JValue → Option (JValue × List Char)
  | 0, _, _ => none
  | fuel + 1, cs, acc =>
    match jValueF fuel cs with
    | none => none
    | some (v, cs1) =>
      match jSkipWs cs1 with
      | ',' :: cs2 => jItemsF fuel cs2 (acc ++ [v])
      | ']' :: cs2 => some (.arr (acc ++ [v]), cs2)
      | _ => none

end

/-- `json.loads`: parse a complete document, allowing surrounding
whitespace, rejecting trailing content. -/
def json_loads (cs : List Char) : Option JValue :=
  match jValueF (cs.length + 1) cs with
  | some (v, rest) => if jSkipWs rest = [] then some v else none
  | none => none

/-! ## XML (`xml.etree.ElementTree`)

The modelled grammar is the fragment the source's inputs exercise: an
optional `<?xml ...?>` declaration (only at the very start, as
`ElementTree` requires), nested attribute-less elements, and character
data.  Attributes, comments, CDATA and entity references are outside the
fragment.  As in `ElementTree`, an element's `text` is the character data
between its start tag and its first child (or end tag), `None` when that
span is empty. -/

/-- An element tree node: tag, `text`, children (in document order). -/
inductive XElem where
  | mk (tag : String) (text : Option String) (children : List XElem)

/-- The element's tag. -/
def XElem.tag : XElem → String
  | .mk t _ _ => t

/-- The element's `text` attribute. -/
def XElem.text : XElem → Option String
  | .mk _ s _ => s

/-- The element's direct children. -/
def XElem.children : XElem → List XElem
  | .mk _ _ cs => cs

/-- XML name characters (ASCII letters, digits, `_`, `-`, `.`, `:`). -/
def xmlNameChar (c : Char) : Bool :=
  ('a' ≤ c && c ≤ 'z') || ('A' ≤ c && c ≤ 'Z') || isDigit c ||
    c = '_' || c = '-' || c = '.' || c = ':'

mutual

/-- Parse one element starting at `<`, fuel-indexed; returns the element
and the rest after its end tag. -/
def xmlElemF : Nat → List Char → Option (XElem × List Char)
  | 0, _ => none
  | fuel + 1, cs =>
    match cs with
    | '<' :: cs1 =>
      let (name, cs2) := (cs1.takeWhile xmlNameChar, cs1.dropWhile xmlNameChar)
      if name = [] then none
      else
        match cs2.dropWhile pyIsSpace with
        | '/' :: '>' :: cs3 => some (.mk (String.mk name) none [], cs3)
        | '>' :: cs3 =>
          let txt := cs3.takeWhile (· ≠ '<')
          let cs4 := cs3.dropWhile (· ≠ '<')
          let textVal : Option String := if txt = [] then none else some (String.mk txt)
          xmlChildrenF fuel (String.mk name) textVal [] cs4
        | _ => none
    | _ => none

/-- Parse the remaining content of an open element (children and its end
tag); `cs` starts at a `<`.  Character data between and after children is
consumed but, as only `.text` is read downstream, not recorded. -/
def xmlChildrenF : Nat → String → Option String → List XElem → List Char →
    Option (XElem × List Char)
  | 0, _, _, _, _ => none
  | fuel + 1, name, textVal, acc, cs =>
    match cs with
    | '<' :: '/' :: cs1 =>
      let (cname, cs2) := (cs1.takeWhile xmlNameChar, cs1.dropWhile xmlNameChar)
      if String.mk cname = name then
        match cs2.dropWhile pyIsSpace with
        | '>' :: cs3 => some (.mk name textVal acc, cs3)
        | _ => none
      else none
    | '<' :: _ =>
      match xmlElemF fuel cs with
      | none => none
      | some (child, cs1) =>
        let cs2 := cs1.dropWhile (· ≠ '<')
        xmlChildrenF fuel name textVal (acc ++ [child]) cs2
    | _ => none

end

/-- `ET.fromstring` / `ET.parse` on a character stream: optional XML
declaration (position 0 only), optional leading whitespace, one root
element, optional trailing whitespace. -/
def xmlFromChars (cs0 : List Char) : Option XElem :=
  let afterProlog : Option (List Char) :=
    if "<?xml".toList.isPrefixOf cs0 then
      let rest := cs0.dropWhile (· ≠ '>')
      match rest with
      | '>' :: r => some r
      | _ => none
    else some cs0
  match afterProlog with
  | none => none
  | some cs1 =>
    match xmlElemF (cs1.length + 1) (cs1.dropWhile pyIsSpace) with
    | some (root, rest) => if rest.dropWhile pyIsSpace = [] then some root else none
    | none => none

/-- Whether `ET.fromstring` succeeds (the well-formedness probe used by
`detect_format`). -/
def xmlWellFormed (cs : List Char) : Bool := (xmlFromChars cs).isSome

/-- All strict descendants of `e` whose tag is `tag`, in document order:
`root.findall('.//tag')`. -/
def xmlFindAllF (fuel : Nat) (tag : String) (e : XElem) : List XElem :=
  match fuel with
  | 0 => []
  | fuel + 1 =>
    (e.children.map (fun c =>
      (if c.tag = tag then [c] else []) ++ xmlFindAllF fuel tag c)).flatten

/-- First direct child of `e` with the given tag: `e.find(tag)`. -/
def xmlFind (e : XElem) (tag : String) : Option XElem :=
  e.children.find? (fun c => c.tag = tag)

/-! ## CSV delimiter sniffing (`csv.Sniffer().sniff`)

`sniff` first runs a quote-based guess whose regular expressions all
require a `"` or `'` character in the sample; on quote-free samples (all
samples considered in this development) it finds nothing and the
character-frequency guess `_guess_delimiter` decides.  The model below is
that frequency guess, transcribed from CPython's `csv.py`: per chunk of
ten lines it tallies, for each ASCII character, how many lines contain
each occurrence count, takes the dominant count (adjusted down by the
other counts), and keeps characters whose dominant count is positive and
holds in a fraction of lines that meets a consistency bar sliding from
1.0 down to 0.9 in steps of 0.01 (exact hundredths here; CPython uses
binary floats).  Sniffing succeeds iff any candidate delimiter survives. -/

/-- Occurrences of the character with code `code` in a line. -/
def countChar (line : List Char) (code : Nat) : Nat :=
  line.countP (fun ch => ch.toNat = code)

/-- A frequency table: occurrence count ↦ number of lines, in first-seen
order (CPython dict insertion order). -/
abbrev FreqTab := List (Nat × Nat)

/-- Record one more line having `freq` occurrences. -/
def bumpFreq (m : FreqTab) (freq : Nat) : FreqTab :=
  if m.any (fun p => p.1 = freq) then
    m.map (fun p => if p.1 = freq then (p.1, p.2 + 1) else p)
  else m ++ [(freq, 1)]

/-- Fold one line into the per-character frequency tables (ASCII 0–126). -/
def addLineFreqs (cf : List FreqTab) (line : List Char) : List FreqTab :=
  (List.range 127).map (fun code => bumpFreq (cf.getD code []) (countChar line code))

/-- The dominant (count, lines) pair of a frequency table, adjusted by
subtracting the other entries' line counts; `none` when the character
never occurs (`{0: n}`). -/
def pickMode : FreqTab → Option (Nat × Int)
  | [] => none
  | [(f, n)] => if f = 0 then none else some (f, (n : Int))
  | x :: xs =>
    let m := (x :: xs).foldl (fun best p => if p.2 > best.2 then p else best) x
    let rest := (x :: xs).erase m
    some (m.1, (m.2 : Int) - rest.foldl (fun a p => a + (p.2 : Int)) 0)

/-- Candidate delimiters at consistency level `(100 - k)/100`. -/
def delimsAt (modes : List (Option (Nat × Int))) (total : Nat) (k : Nat) : List Nat :=
  (List.range 127).filter (fun code =>
    match modes.getD code none with
    | some (f, v) => decide (0 < f) && decide (0 < v) &&
        decide (v * 100 ≥ (total : Int) * (100 - (k : Int)))
    | none => false)

/-- Slide the consistency bar from 1.0 down to 0.9 until candidates appear. -/
def scanDelims (modes : List (Option (Nat × Int))) (total : Nat) : List Nat :=
  (List.range 11).foldl (fun acc k => if acc.isEmpty then delimsAt modes total k else acc) []

/-- Split a list into chunks of `n` (fuel = list length). -/
def chunksOfF {α : Type} : Nat → Nat → List α → List (List α)
  | 0, _, _ => []
  | _ + 1, _, [] => []
  | fuel + 1, n, l =>
    if n = 0 then [] else l.take n :: chunksOfF fuel n (l.drop n)

/-- The chunk loop of `_guess_delimiter`: accumulate frequency tables
chunk by chunk; while no candidates exist, rescan after each chunk;
return early when exactly one candidate exists. -/
def sniffGo (cl n : Nat) :
    List (List (List Char)) → List FreqTab → Nat → List Nat → List Nat
  | [], _, _, delims => delims
  | chunk :: restChunks, cf, iter, delims =>
    let cf' := chunk.foldl addLineFreqs cf
    let modes := cf'.map pickMode
    let total := min (cl * (iter + 1)) n
    let delims' := if delims.isEmpty then scanDelims modes total else delims
    if delims'.length = 1 then delims'
    else sniffGo cl n restChunks cf' (iter + 1) delims'

/-- Candidate delimiters found by `_guess_delimiter` over the sample's
non-empty lines. -/
def guessDelims (cs : List Char) : List Nat :=
  let lines := (splitOnChar '\n' cs).filter (· ≠ [])
  let n := lines.length
  let cl := min 10 n
  sniffGo cl n (chunksOfF lines.length cl lines) (List.replicate 127 []) 0 []

/-- Whether `csv.Sniffer().sniff` succeeds on the sample. -/
def csvSniffs (cs : List Char) : Bool := !(guessDelims cs).isEmpty

/-! ## `detect_format` -/

/-- The two binary spreadsheet magics checked at `file_handlers.py:46`:
the ZIP local-file header `PK\x03\x04` and the legacy compound-binary
header `D0 CF 11 E0`. -/
def hasSpreadsheetMagic (pre : List Nat) : Bool :=
  [0x50, 0x4B, 0x03, 0x04].isPrefixOf pre || [0xD0, 0xCF, 0x11, 0xE0].isPrefixOf pre

/-- The fixed-width heuristic (`file_handlers.py:49-55`): take the first
five lines; if every line after the first that is non-blank has the same
length as line 0, classify as fixed-width. -/
def fixedWidthCheck (cs : List Char) : String :=
  match (splitOnChar '\n' cs).take 5 with
  | [] => "fixed-width"
  | l0 :: rest =>
    if rest.all (fun l => decide (pyStrip l = []) || decide (l.length = l0.length)) then
      "fixed-width"
    else "unknown"

/-- The format decision on the 4096-byte prefix, mirroring the source's
fall-through order: decode as text, then JSON probe, XML probe, CSV
sniff, binary magic, fixed-width heuristic, `unknown`.  When decoding
fails the text checks are skipped, and the fixed-width check (which
reads the decoded text) fails with a `NameError` swallowed by its bare
`except`, so only the magic check can classify. -/
def detectBytes (pre : List Nat) : String :=
  match utf8Decode pre with
  | some cs =>
    let st := pyStrip cs
    if ("\x7b".toList.isPrefixOf st || "[".toList.isPrefixOf st) &&
        (json_loads st).isSome then "json"
    else if ("<?xml".toList.isPrefixOf st || "<".toList.isPrefixOf st) &&
        xmlWellFormed cs then "xml"
    else if csvSniffs cs then "csv"
    else if hasSpreadsheetMagic pre then "excel"
    else fixedWidthCheck cs
  | none =>
    if hasSpreadsheetMagic pre then "excel" else "unknown"

/-- `detect_format(file_obj)`: read the first 4KB, reset the position to
the start of the stream, classify the prefix. -/
def detect_format (file_obj : ByteStream) : String × ByteStream :=
  let (content_start, f1) := file_obj.read 4096
  (detectBytes content_start, f1.seek 0)

/-! ## DataFrames -/

/-- A cell value: a string, a (rational-valued) number, a boolean, or
missing (`NaN`/`None`).  Note `pd.isna("")` is `False`: the empty string
is a `str` cell, not a missing cell. -/
inductive Cell where
  | str (s : String)
  | num (q : Rat)
  | bool (b : Bool)
  | nan
deriving DecidableEq

/-- Is the cell missing (`pd.isna`)? -/
def Cell.isna : Cell → Bool
  | .nan => true
  | _ => false

/-- A row is a name-keyed record (pandas keeps one value per column per
row; records directly built from parser output may lack keys, read back
as missing). -/
abbrev Row := List (String × Cell)

/-- A DataFrame: the column names in order, and the rows in order. -/
structure DataFrame where
  cols : List String
  rows : List Row
deriving DecidableEq

deriving instance DecidableEq for Except

/-- The value of column `c` in a row: first entry with that key, missing
when absent. -/
def getField (r : Row) (c : String) : Cell :=
  match r.find? (fun p => p.1 = c) with
  | some p => p.2
  | none => Cell.nan

/-- Overwrite column `c` in a row (all entries with that key), appending
when absent. -/
def setField (r : Row) (c : String) (v : Cell) : Row :=
  if r.any (fun p => p.1 = c) then
    r.map (fun p => if p.1 = c then (c, v) else p)
  else r ++ [(c, v)]

/-- `df[c]` as a value series. -/
def getCol (df : DataFrame) (c : String) : List Cell :=
  df.rows.map (fun r => getField r c)

/-- `df[c] = vals`: overwrite an existing column or append a new one. -/
def setCol (df : DataFrame) (c : String) (vals : List Cell) : DataFrame :=
  ⟨if df.cols.contains c then df.cols else df.cols ++ [c],
   List.zipWith (fun r v => setField r c v) df.rows vals⟩

/-- `pd.DataFrame(records)` for a list of dict-records: columns are the
keys in first-appearance order; rows are the records. -/
def dfFromRecords (records : List Row) : DataFrame :=
  ⟨records.foldl (fun acc r =>
      (r.map Prod.fst).foldl (fun a k => if a.contains k then a else a ++ [k]) acc) [],
   records⟩

/-- Element-wise `pd.to_numeric(·, errors='coerce')`: numbers stay,
booleans become 0/1, strings are best-effort parsed, failures and
missing values become `NaN`. -/
def toNumericCell : Cell → Cell
  | .num q => .num q
  | .bool b => .num (if b then 1 else 0)
  | .nan => .nan
  | .str s =>
    match pyFloat s.toList with
    | some q => .num q
    | none => .nan

/-- One cell of `pd.to_numeric(col, errors='coerce').fillna(0)`. -/
def coerceFill (c : Cell) : Cell :=
  match toNumericCell c with
  | .nan => .num 0
  | v => v

/-! ## Schema validation and coercion (`validate_dataframe` and the
clean-up loop of `read_financial_file`) -/

/-- The required (extended-schema) columns, in the order declared at
`file_handlers.py:61-66`. -/
def required_columns : List String :=
  ["Account_code", "Account_name",
   "opening_balance_debit", "opening_balance_credit",
   "current_turnover_debit", "current_turnover_credit",
   "end_of_period_debit", "end_of_period_credit"]

/-- The declared numeric columns (`file_handlers.py:74-78`). -/
def numeric_columns : List String :=
  ["opening_balance_debit", "opening_balance_credit",
   "current_turnover_debit", "current_turnover_credit",
   "end_of_period_debit", "end_of_period_credit"]

/-- Join with `", "` (the missing-column report; see the header note on
Python's set iteration order). -/
def joinComma : List String → String
  | [] => ""
  | [s] => s
  | s :: rest => s ++ ", " ++ joinComma rest

/-- `validate_dataframe(df)`: require the extended columns; require every
declared numeric column to coerce with no missing result; require the
identifier columns to have no missing (`isna`) values — an *empty string*
passes, only `NaN`/`None` triggers the check. -/
def validate_dataframe (df : DataFrame) : Except String Bool :=
  let missing := required_columns.filter (fun c => !df.cols.contains c)
  if missing ≠ [] then
    .error ("Missing required columns: " ++ joinComma missing)
  else
    match numeric_columns.find?
        (fun col => (getCol df col).any (fun c => (toNumericCell c).isna)) with
    | some col => .error ("Column " ++ col ++ " must contain only numeric values")
    | none =>
      if (getCol df "Account_code").any Cell.isna then
        .error "Account_code cannot contain empty values"
      else if (getCol df "Account_name").any Cell.isna then
        .error "Account_name cannot contain empty values"
      else .ok true

/-- The clean-up loop at `file_handlers.py:190-191`:
`df[col] = pd.to_numeric(df[col], errors='coerce').fillna(0)` for each
declared numeric column. -/
def coerce_numeric (df : DataFrame) : DataFrame :=
  numeric_columns.foldl (fun d col => setCol d col ((getCol d col).map coerceFill)) df

/-- The validate-then-coerce step of `read_financial_file`
(`file_handlers.py:180-191`) as one operation. -/
def validate_and_coerce (df : DataFrame) : Except String DataFrame :=
  match validate_dataframe df with
  | .error e => .error e
  | .ok _ => .ok (coerce_numeric df)

/-- The effect of one column-coercion step on a single row. -/
def rowCoerce (r : Row) (c : String) : Row :=
  setField r c (coerceFill (getField r c))

/-- The effect of the whole clean-up loop on a single row. -/
def rowCoerceAll (names : List String) (r : Row) : Row :=
  names.foldl rowCoerce r

/-- Key `c` is present in the row and all its entries carry one common
numeric value — the shape every coerced numeric column has. -/
def UniformKey (r : Row) (c : String) : Prop :=
  r.any (fun p => p.1 = c) = true ∧
    ∃ q : Rat, ∀ p ∈ r, p.1 = c → p.2 = Cell.num q

/-! ## Per-format parsers -/

/-- The default NA spellings of `pd.read_csv` (an unquoted field equal to
one of these becomes `NaN`). -/
def naValues : List String :=
  ["", "#N/A", "#N/A N/A", "#NA", "-1.#IND", "-1.#QNAN", "-NaN", "-nan",
   "1.#IND", "1.#QNAN", "<NA>", "N/A", "NA", "NULL", "NaN", "None",
   "n/a", "nan", "null"]

/-- Value inference for one unquoted CSV / fixed-width field: NA
spellings become missing, numeric-looking text becomes a number,
anything else stays a string. -/
def inferCell (s : List Char) : Cell :=
  if naValues.contains (String.mk s) then Cell.nan
  else
    match pyFloat s with
    | some q => Cell.num q
    | none => Cell.str (String.mk s)

/-- `pd.read_csv(file_obj)` with default options, modelled at the
fragment the source exercises: UTF-8 text, comma-separated, first row
is the header, blank lines skipped, no quoting or escaping in the data
(no claim input contains a quote character), default NA handling. -/
def read_csv (bs : List Nat) : Except String DataFrame :=
  match utf8Decode bs with
  | none => .error "invalid UTF-8 in CSV input"
  | some cs =>
    match (splitOnChar '\n' cs).filter (· ≠ []) with
    | [] => .error "No columns to parse from file"
    | header :: dataLines =>
      let colNames := (splitOnChar ',' header).map String.mk
      let rows : List Row := dataLines.map (fun line =>
        List.zip colNames ((splitOnChar ',' line).map inferCell))
      .ok ⟨colNames, rows⟩

/-- The dict-building body of `parse_xml`'s loop for one `<entry>`
element: text fields default to `''` when the child is absent (and to
`None` when the child is empty, as `elem.text` is `None` there); numeric
fields are `float(child.text)`, `0` when the child is absent, and a
raised conversion error — wrapped by the caller — when the text is
missing or non-numeric. -/
def xmlTextField (e : XElem) (tag : String) : Cell :=
  match xmlFind e tag with
  | none => Cell.str ""
  | some ch =>
    match ch.text with
    | some t => Cell.str t
    | none => Cell.nan

/-- A numeric field of an `<entry>` element (see `xmlTextField`). -/
def xmlNumField (e : XElem) (tag : String) : Except String Cell :=
  match xmlFind e tag with
  | none => .ok (Cell.num 0)
  | some ch =>
    match ch.text with
    | none => .error "float() argument must be a string or a real number, not NoneType"
    | some t =>
      match pyFloat t.toList with
      | some q => .ok (Cell.num q)
      | none => .error ("could not convert string to float: " ++ t)

/-- One row of `parse_xml`'s `data` list (`file_handlers.py:118-127`),
keys in the source's dict order. -/
def xmlEntryRecord (e : XElem) : Except String Row := do
  let ob ← xmlNumField e "opening_debit"
  let oc ← xmlNumField e "opening_credit"
  let tb ← xmlNumField e "turnover_debit"
  let tc ← xmlNumField e "turnover_credit"
  let eb ← xmlNumField e "ending_debit"
  let ec ← xmlNumField e "ending_credit"
  pure [("Account_code", xmlTextField e "account_code"),
        ("Account_name", xmlTextField e "account_name"),
        ("opening_balance_debit", ob),
        ("opening_balance_credit", oc),
        ("current_turnover_debit", tb),
        ("current_turnover_credit", tc),
        ("end_of_period_debit", eb),
        ("end_of_period_credit", ec)]

/-- The `.//entry` query of `parse_xml` on a parsed document. -/
def xmlEntries (root : XElem) (fuel : Nat) : List XElem :=
  xmlFindAllF fuel "entry" root

/-- `ET.parse` on the stream's bytes: decode, then parse. -/
def xmlFromBytes (bs : List Nat) : Option XElem :=
  (utf8Decode bs).bind xmlFromChars

/-- `parse_xml(file_obj)`: parse the document, collect every descendant
`<entry>`, build one record per entry, wrap any failure in
`"Error parsing XML file: ..."`. -/
def parse_xml (bs : List Nat) : Except String DataFrame :=
  match xmlFromBytes bs with
  | none => .error "Error parsing XML file: no element found or not well-formed"
  | some root =>
    match (xmlEntries root bs.length).mapM xmlEntryRecord with
    | .error e => .error ("Error parsing XML file: " ++ e)
    | .ok records => .ok (dfFromRecords records)

/-- A scalar JSON value as a DataFrame cell.  Nested arrays/objects
inside records are outside the modelled fragment (pandas would store
them as opaque objects; no claim input contains them). -/
def jCell : JValue → Cell
  | .null => Cell.nan
  | .bool b => Cell.bool b
  | .num q => Cell.num q
  | .str s => Cell.str s
  | .arr _ => Cell.nan
  | .obj _ => Cell.nan

/-- A JSON record object as a row. -/
def jRecord : JValue → Row
  | .obj fields => fields.map (fun (k, v) => (k, jCell v))
  | _ => []

/-- `parse_json(file_obj)`: accept a top-level array of records or an
object with an `entries` array; any other shape is
`"Invalid JSON structure"`; then insert each missing required column as
a zero column.  All failures are wrapped in `"Error parsing JSON file:
..."`. -/
def parse_json (bs : List Nat) : Except String DataFrame :=
  let parsed : Except String DataFrame :=
    match utf8Decode bs with
    | none => .error "invalid UTF-8 in JSON input"
    | some cs =>
      match json_loads cs with
      | none => .error "Expecting value"
      | some (.arr xs) => .ok (dfFromRecords (xs.map jRecord))
      | some (.obj fields) =>
        match fields.find? (fun p => p.1 = "entries") with
        | some (_, .arr xs) => .ok (dfFromRecords (xs.map jRecord))
        | some (_, _) => .error "DataFrame constructor not properly called"
        | none => .error "Invalid JSON structure"
      | some _ => .error "Invalid JSON structure"
  match parsed with
  | .error e => .error ("Error parsing JSON file: " ++ e)
  | .ok df =>
    .ok (required_columns.foldl (fun d col =>
      if d.cols.contains col then d
      else setCol d col (d.rows.map (fun _ => Cell.num 0))) df)

/-- The fixed column widths of `parse_fixed_width`
(`file_handlers.py:95`). -/
def fwWidths : List Nat := [10, 30, 15, 15, 15, 15, 15, 15]

/-- Slice one line into whitespace-trimmed fields at the fixed widths. -/
def fwSlices : List Nat → List Char → List (List Char)
  | [], _ => []
  | w :: ws, line => pyStrip (line.take w) :: fwSlices ws (line.drop w)

/-- `pd.read_fwf(file_obj, widths=..., names=...)` at the modelled
fragment (no claim exercises this parser: it is defined for the
dispatch in `read_financial_file` to be total): each non-blank line is
sliced at the fixed widths, fields are trimmed and type-inferred, and
`df.fillna(0)` then replaces every missing cell by `0`. -/
def parse_fixed_width (bs : List Nat) : Except String DataFrame :=
  match utf8Decode bs with
  | none => .error "Error parsing fixed-width file: invalid UTF-8"
  | some cs =>
    let dataLines := (splitOnChar '\n' cs).filter (· ≠ [])
    let rows : List Row := dataLines.map (fun line =>
      List.zip required_columns
        ((fwSlices fwWidths line).map (fun f =>
          match inferCell f with
          | Cell.nan => Cell.num 0
          | c => c)))
    .ok ⟨required_columns, rows⟩

/-- `pd.read_excel` unpacks a binary spreadsheet container; that library
behaviour is not modelled (no property below depends on this branch of
the dispatch). -/
def read_excel (bs : List Nat) : Except String DataFrame :=
  .error "spreadsheet container parsing not modelled"

/-- `read_financial_file(file_obj, filename)`: sniff the format,
dispatch to the matching parser, validate, coerce the numeric columns;
every failure is re-raised as `"Error processing file: ..."`.  The
`filename` hint is accepted and, as in the source, never used. -/
def read_financial_file (file_obj : ByteStream) (filename : String) :
    Except String DataFrame :=
  let p := detect_format file_obj
  let format_type := p.1
  let rest := p.2.data.drop p.2.pos
  let parsed : Except String DataFrame :=
    if format_type = "csv" then read_csv rest
    else if format_type = "excel" then read_excel rest
    else if format_type = "json" then parse_json rest
    else if format_type = "xml" then parse_xml rest
    else if format_type = "fixed-width" then parse_fixed_width rest
    else .error ("Unsupported file format: " ++ format_type)
  match parsed with
  | .error e => .error ("Error processing file: " ++ e)
  | .ok df =>
    match validate_dataframe df with
    | .error e => .error ("Error processing file: " ++ e)
    | .ok _ => .ok (coerce_numeric df)

/-! ## The hand-off computation (`processor.py:37`) -/

/-- Element-wise subtraction of two numeric series
(`df[a] - df[b]`; missing propagates). -/
def cellSub : Cell → Cell → Cell
  | .num a, .num b => .num (a - b)
  | _, _ => .nan

/-- `df['net_balance'] = df['end_of_period_debit'] -
df['end_of_period_credit']` (`processor.py:37`), the derived column
computed before the table is handed to the statement generator. -/
def add_net_balance (df : DataFrame) : DataFrame :=
  setCol df "net_balance"
    (List.zipWith cellSub (getCol df "end_of_period_debit")
      (getCol df "end_of_period_credit"))

/-- Convenience: the bytes of an ASCII/UTF-8 string literal. -/
def strBytes (s : String) : List Nat :=
  s.toUTF8.toList.map (fun b => b.toNat)

/-! ## Concrete inputs used by the claim theorems -/

/-- A CSV upload with the extended-schema headers whose
`end_of_period_debit` cell in one row is the text `N/A`. -/
def naCellInput : List Nat :=
  strBytes ("Account_code,Account_name,opening_balance_debit,opening_balance_credit," ++
    "current_turnover_debit,current_turnover_credit,end_of_period_debit,end_of_period_credit\n" ++
    "A1,Cash,0,0,0,0,N/A,0\n")

/-- The simple-schema CSV upload of Scenario A. -/
def simpleSchemaInput : List Nat :=
  strBytes "Account,Debit,Credit\nCash,100,0\nRevenue,0,100\n"

/-- The table `pd.read_csv` produces from `simpleSchemaInput`. -/
def simpleSchemaTable : DataFrame :=
  ⟨["Account", "Debit", "Credit"],
   [[("Account", Cell.str "Cash"), ("Debit", Cell.num 100), ("Credit", Cell.num 0)],
    [("Account", Cell.str "Revenue"), ("Debit", Cell.num 0), ("Credit", Cell.num 100)]]⟩

/-- Bytes that begin with the ZIP magic `PK\x03\x04` and continue with
delimited text (`a,b\nc,d\n`). -/
def pkThenCsvInput : List Nat :=
  [0x50, 0x4B, 0x03, 0x04] ++ strBytes "a,b\nc,d\n"

/-- Bytes that begin with the ZIP magic and continue with text on which
delimiter sniffing finds nothing (`\nQ\n`). -/
def pkThenPlainInput : List Nat := [0x50, 0x4B, 0x03, 0x04, 0x0A, 0x51, 0x0A]

/-- A well-formed XML document with zero `<entry>` elements. -/
def zeroEntryXmlInput : List Nat := strBytes "<data></data>"

/-- A JSON document whose `entries` array is empty. -/
def emptyEntriesJsonInput : List Nat := strBytes "\x7b\"entries\": []\x7d"

/-- An XML upload whose one `<entry>` has no `<account_code>` child, so
`parse_xml` fills the identifier with the empty string. -/
def emptyCodeXmlInput : List Nat :=
  strBytes "<data><entry><account_name>Cash</account_name></entry></data>"

/-- The table `read_financial_file` returns for `emptyCodeXmlInput`:
its one row carries an empty-string `Account_code`. -/
def emptyCodeRow : Row :=
  [("Account_code", Cell.str ""), ("Account_name", Cell.str "Cash"),
   ("opening_balance_debit", Cell.num 0), ("opening_balance_credit", Cell.num 0),
   ("current_turnover_debit", Cell.num 0), ("current_turnover_credit", Cell.num 0),
   ("end_of_period_debit", Cell.num 0), ("end_of_period_credit", Cell.num 0)]

/-- Five text lines of five different lengths (Scenario E). -/
def raggedLinesInput : List Nat := strBytes "abc\nde\nf\nghij\nklmno"

/-- A well-formed one-row extended-schema table whose
`opening_balance_debit` arrives as the string `"5"` (so coercion does
real work). -/
def coercibleTable : DataFrame :=
  ⟨required_columns,
   [[("Account_code", Cell.str "A1"), ("Account_name", Cell.str "Cash"),
     ("opening_balance_debit", Cell.str "5"), ("opening_balance_credit", Cell.num 0),
     ("current_turnover_debit", Cell.num 1), ("current_turnover_credit", Cell.num 2),
     ("end_of_period_debit", Cell.num 7), ("end_of_period_credit", Cell.num 3)]]⟩

/-- `coercibleTable` after validation and coercion. -/
def coercibleTableOut : DataFrame :=
  ⟨required_columns,
   [[("Account_code", Cell.str "A1"), ("Account_name", Cell.str "Cash"),
     ("opening_balance_debit", Cell.num 5), ("opening_balance_credit", Cell.num 0),
     ("current_turnover_debit", Cell.num 1), ("current_turnover_credit", Cell.num 2),
     ("end_of_period_debit", Cell.num 7), ("end_of_period_credit", Cell.num 3)]]⟩

/-- The row the statement generator sees for `coercibleTable`:
`net_balance = 7 - 3 = 4`. -/
def coercibleNetRow : Row :=
  [("Account_code", Cell.str "A1"), ("Account_name", Cell.str "Cash"),
   ("opening_balance_debit", Cell.num 5), ("opening_balance_credit", Cell.num 0),
   ("current_turnover_debit", Cell.num 1), ("current_turnover_credit", Cell.num 2),
   ("end_of_period_debit", Cell.num 7), ("end_of_period_credit", Cell.num 3),
   ("net_balance", Cell.num 4)]

/-- Did the call fail? -/
def isError {α : Type} : Except String α → Bool
  | .error _ => true
  | .ok _ => false

/-- A table with the extended columns whose `end_of_period_debit` value is
the unparseable text `N/A` (what `parse_json` would deliver for such an
upload; `pd.read_csv` instead delivers `NaN` via its NA list — both fail
numeric coercion). -/
def naCellTable : DataFrame :=
  ⟨required_columns, [[("end_of_period_debit", Cell.str "N/A")]]⟩

/-! ## Row and column algebra -/

theorem mem_setField_eq_key {r : Row} {c : String} {v : Cell} :
    ∀ p ∈ setField r c v, p.1 = c → p.2 = v := by
  intro p hp hkey
  unfold setField at hp
  split at hp
  · rcases List.mem_map.1 hp with ⟨q, _, rfl⟩
    by_cases hqc : q.1 = c
    · simp [hqc]
    · simp [hqc] at hkey
  · rename_i hna
    rcases List.mem_append.1 hp with h1 | h2
    · exact absurd (List.any_eq_true.2 ⟨p, h1, by simpa using hkey⟩) hna
    · simp only [List.mem_singleton] at h2
      subst h2
      rfl

theorem setField_any_key (r : Row) (c : String) (v : Cell) :
    (setField r c v).any (fun p => p.1 = c) = true := by
  unfold setField
  split
  · rename_i hc
    rcases List.any_eq_true.1 hc with ⟨q, hq, hqc⟩
    refine List.any_eq_true.2 ⟨(c, v), List.mem_map.2 ⟨q, hq, ?_⟩, by simp⟩
    simp [of_decide_eq_true hqc]
  · exact List.any_eq_true.2 ⟨(c, v), List.mem_append_right _ (by simp), by simp⟩

theorem getField_setField_self (r : Row) (c : String) (v : Cell) :
    getField (setField r c v) c = v := by
  have hsome : ((setField r c v).find? (fun p => decide (p.1 = c))).isSome := by
    rw [List.find?_isSome]
    exact List.any_eq_true.1 (setField_any_key r c v)
  rcases Option.isSome_iff_exists.1 hsome with ⟨pe, hp⟩
  have hmem := List.mem_of_find?_eq_some hp
  have hkey : pe.1 = c := by simpa using List.find?_some hp
  unfold getField
  rw [hp]
  exact mem_setField_eq_key pe hmem hkey

theorem getField_nil (c : String) : getField [] c = Cell.nan := rfl

theorem getField_cons (q : String × Cell) (rest : Row) (c : String) :
    getField (q :: rest) c = if q.1 = c then q.2 else getField rest c := by
  by_cases hq : q.1 = c
  · simp [getField, List.find?_cons, hq]
  · simp [getField, List.find?_cons, hq]

theorem getField_map_set_ne {c c' : String} {v : Cell} (h : c' ≠ c) :
    ∀ r : Row, getField (r.map (fun q => if q.1 = c then (c, v) else q)) c' = getField r c'
  | [] => rfl
  | q :: rest => by
    by_cases hqc : q.1 = c
    · have h1 : ¬ (c = c') := fun he => h he.symm
      have h2 : ¬ (q.1 = c') := fun he => h (he.symm.trans hqc)
      simp [List.map_cons, hqc, getField_cons, h1, h2, getField_map_set_ne h rest]
    · by_cases hqc' : q.1 = c'
      · simp [List.map_cons, hqc, getField_cons, hqc', h]
      · simp [List.map_cons, hqc, getField_cons, hqc', getField_map_set_ne h rest]

theorem getField_append_single_ne {c c' : String} {v : Cell} (h : c' ≠ c) :
    ∀ r : Row, getField (r ++ [(c, v)]) c' = getField r c'
  | [] => by
    have h1 : ¬ (c = c') := fun he => h he.symm
    simp [getField_cons, h1, getField_nil]
  | q :: rest => by
    by_cases hqc' : q.1 = c'
    · simp [List.cons_append, getField_cons, hqc']
    · simp [List.cons_append, getField_cons, hqc', getField_append_single_ne h rest]

theorem getField_setField_ne {c c' : String} (r : Row) (v : Cell) (h : c' ≠ c) :
    getField (setField r c v) c' = getField r c' := by
  unfold setField
  split
  · exact getField_map_set_ne h r
  · exact getField_append_single_ne h r

theorem mem_setField_of_ne {r : Row} {c c' : String} {v : Cell} (h : c ≠ c') :
    ∀ p ∈ setField r c' v, p.1 = c → p ∈ r := by
  intro p hp hpc
  unfold setField at hp
  split at hp
  · rcases List.mem_map.1 hp with ⟨q, hq, rfl⟩
    by_cases hqc : q.1 = c'
    · simp only [if_pos hqc] at hpc
      exact absurd hpc (Ne.symm h)
    · simpa [if_neg hqc] using hq
  · rcases List.mem_append.1 hp with h1 | h2
    · exact h1
    · simp only [List.mem_singleton] at h2
      subst h2
      exact absurd hpc (Ne.symm h)

theorem any_key_setField_of_ne {r : Row} {c c' : String} {v : Cell} (h : c ≠ c')
    (ha : r.any (fun p => p.1 = c) = true) :
    (setField r c' v).any (fun p => p.1 = c) = true := by
  rcases List.any_eq_true.1 ha with ⟨q, hq, hqc⟩
  have hqc' : q.1 = c := of_decide_eq_true hqc
  unfold setField
  split
  · refine List.any_eq_true.2 ⟨q, List.mem_map.2 ⟨q, hq, ?_⟩, hqc⟩
    rw [if_neg (fun he => h (hqc'.symm.trans he))]
  · exact List.any_eq_true.2 ⟨q, List.mem_append_left _ hq, hqc⟩

theorem uniformKey_setField_ne {r : Row} {c c' : String} {v : Cell} (h : c ≠ c')
    (hu : UniformKey r c) : UniformKey (setField r c' v) c := by
  obtain ⟨ha, q, hq⟩ := hu
  exact ⟨any_key_setField_of_ne h ha, q,
    fun p hp hpc => hq p (mem_setField_of_ne h p hp hpc) hpc⟩

theorem uniformKey_setField_num {r : Row} {c : String} {q : Rat} :
    UniformKey (setField r c (Cell.num q)) c :=
  ⟨setField_any_key r c _, q, mem_setField_eq_key⟩

theorem coerceFill_is_num (cel : Cell) : ∃ q : Rat, coerceFill cel = Cell.num q := by
  cases cel with
  | str s =>
    rcases hf : pyFloat s.toList with _ | q
    · exact ⟨0, by simp only [String.toList] at hf; simp [coerceFill, toNumericCell, hf]⟩
    · exact ⟨q, by simp only [String.toList] at hf; simp [coerceFill, toNumericCell, hf]⟩
  | num q => exact ⟨q, rfl⟩
  | bool b => exact ⟨if b then 1 else 0, rfl⟩
  | nan => exact ⟨0, rfl⟩

theorem coerceFill_num (q : Rat) : coerceFill (Cell.num q) = Cell.num q := rfl

theorem uniformKey_rowCoerce_self (r : Row) (c : String) :
    UniformKey (rowCoerce r c) c := by
  obtain ⟨q, hq⟩ := coerceFill_is_num (getField r c)
  rw [rowCoerce, hq]
  exact uniformKey_setField_num

theorem uniformKey_rowCoerce {r : Row} {c : String} (c'' : String)
    (h : UniformKey r c) : UniformKey (rowCoerce r c'') c := by
  by_cases hc : c = c''
  · subst hc
    exact uniformKey_rowCoerce_self r c
  · exact uniformKey_setField_ne hc h

theorem getField_of_uniform {r : Row} {c : String} (h : UniformKey r c) :
    ∃ q : Rat, getField r c = Cell.num q ∧ ∀ p ∈ r, p.1 = c → p.2 = Cell.num q := by
  obtain ⟨ha, q, hq⟩ := h
  have hsome : (r.find? (fun p => decide (p.1 = c))).isSome :=
    List.find?_isSome.2 (List.any_eq_true.1 ha)
  rcases Option.isSome_iff_exists.1 hsome with ⟨p1, hp1⟩
  have hkey1 : p1.1 = c := by simpa using List.find?_some hp1
  refine ⟨q, ?_, hq⟩
  unfold getField
  rw [hp1]
  exact hq p1 (List.mem_of_find?_eq_some hp1) hkey1

theorem setField_id {r : Row} {c : String} {v : Cell}
    (ha : r.any (fun p => p.1 = c) = true)
    (hv : ∀ p ∈ r, p.1 = c → p.2 = v) : setField r c v = r := by
  unfold setField
  rw [if_pos ha]
  have : ∀ p ∈ r, (if p.1 = c then (c, v) else p) = p := by
    intro p hp
    by_cases hpc : p.1 = c
    · rw [if_pos hpc]
      exact Prod.ext hpc.symm (hv p hp hpc).symm
    · rw [if_neg hpc]
  rw [List.map_congr_left this, List.map_id']

theorem rowCoerce_id {r : Row} {c : String} (h : UniformKey r c) : rowCoerce r c = r := by
  obtain ⟨q, hget, hall⟩ := getField_of_uniform h
  rw [rowCoerce, hget, coerceFill_num]
  exact setField_id h.1 hall

theorem uniformKey_rowCoerceAll {c : String} :
    ∀ (names : List String) (r : Row), UniformKey r c → UniformKey (rowCoerceAll names r) c
  | [], _, h => h
  | c1 :: rest, r, h =>
    uniformKey_rowCoerceAll rest (rowCoerce r c1) (uniformKey_rowCoerce c1 h)

theorem uniformKey_rowCoerceAll_mem {c : String} :
    ∀ (names : List String) (r : Row), c ∈ names → UniformKey (rowCoerceAll names r) c
  | [], _, hc => absurd hc (List.not_mem_nil c)
  | c1 :: rest, r, hc => by
    rcases List.mem_cons.1 hc with h1 | h2
    · subst h1
      exact uniformKey_rowCoerceAll rest (rowCoerce r c) (uniformKey_rowCoerce_self r c)
    · exact uniformKey_rowCoerceAll_mem rest (rowCoerce r c1) h2

theorem rowCoerceAll_id :
    ∀ (names : List String) (r : Row), (∀ c ∈ names, UniformKey r c) →
      rowCoerceAll names r = r
  | [], _, _ => rfl
  | c1 :: rest, r, h => by
    have h1 : rowCoerce r c1 = r := rowCoerce_id (h c1 (List.mem_cons_self c1 rest))
    show rowCoerceAll rest (rowCoerce r c1) = r
    rw [h1]
    exact rowCoerceAll_id rest r (fun c hc => h c (List.mem_cons_of_mem c1 hc))

theorem getField_rowCoerceAll_not_mem {c : String} :
    ∀ (names : List String) (r : Row), c ∉ names →
      getField (rowCoerceAll names r) c = getField r c
  | [], _, _ => rfl
  | c1 :: rest, r, h => by
    have hne : c ≠ c1 := fun he => h (he ▸ List.mem_cons_self c1 rest)
    show getField (rowCoerceAll rest (rowCoerce r c1)) c = getField r c
    rw [getField_rowCoerceAll_not_mem rest (rowCoerce r c1) (fun hm => h (List.mem_cons_of_mem c1 hm)),
      rowCoerce, getField_setField_ne _ _ hne]

theorem coerceCols_eq :
    ∀ (names : List String) (d : DataFrame),
      (∀ c ∈ names, d.cols.contains c = true) →
      names.foldl (fun d col => setCol d col ((getCol d col).map coerceFill)) d
        = ⟨d.cols, d.rows.map (rowCoerceAll names)⟩
  | [], d, _ => by
    show d = ⟨d.cols, d.rows.map (rowCoerceAll [])⟩
    have : d.rows.map (rowCoerceAll []) = d.rows := List.map_id d.rows
    rw [this]
  | c1 :: rest, d, hd => by
    have hstep : setCol d c1 ((getCol d c1).map coerceFill)
        = ⟨d.cols, d.rows.map (fun r => rowCoerce r c1)⟩ := by
      unfold setCol
      rw [if_pos (hd c1 (List.mem_cons_self c1 rest))]
      congr 1
      unfold getCol
      rw [List.map_map, List.zipWith_map_right, List.zipWith_same]
      rfl
    show rest.foldl _ (setCol d c1 ((getCol d c1).map coerceFill)) = _
    rw [hstep,
      coerceCols_eq rest ⟨d.cols, d.rows.map (fun r => rowCoerce r c1)⟩ (fun c hc => hd c (List.mem_cons_of_mem c1 hc))]
    simp only [List.map_map]
    rfl

theorem coerce_numeric_eq (df : DataFrame)
    (h : ∀ c ∈ numeric_columns, df.cols.contains c = true) :
    coerce_numeric df = ⟨df.cols, df.rows.map (rowCoerceAll numeric_columns)⟩ :=
  coerceCols_eq numeric_columns df h

theorem validate_ok_iff (df : DataFrame) (b : Bool) :
    validate_dataframe df = .ok b ↔
      (b = true ∧
       required_columns.filter (fun c => !df.cols.contains c) = [] ∧
       numeric_columns.find?
         (fun col => (getCol df col).any (fun x => (toNumericCell x).isna)) = none ∧
       (getCol df "Account_code").any Cell.isna = false ∧
       (getCol df "Account_name").any Cell.isna = false) := by
  constructor
  · intro h
    simp only [validate_dataframe] at h
    split at h
    · cases h
    · rename_i hm
      split at h
      · cases h
      · rename_i hfind
        split at h
        · cases h
        · split at h
          · cases h
          · rename_i h3 h4
            cases h
            exact ⟨rfl, not_not.1 hm, hfind,
              Bool.not_eq_true _ ▸ h3, Bool.not_eq_true _ ▸ h4⟩
  · rintro ⟨rfl, h1, h2, h3, h4⟩
    simp [validate_dataframe, h1, h2, h3, h4]
    intro x hx
    simpa using List.filter_eq_nil_iff.1 h1 x hx

theorem numeric_subset_required : ∀ c ∈ numeric_columns, c ∈ required_columns := by
  decide

theorem contains_of_filter_nil {df : DataFrame}
    (hmiss : required_columns.filter (fun c => !df.cols.contains c) = []) :
    ∀ c ∈ numeric_columns, df.cols.contains c = true := by
  intro c hc
  simpa using List.filter_eq_nil_iff.1 hmiss c (numeric_subset_required c hc)

theorem getCol_map_ne_numeric (df : DataFrame) {c : String}
    (h : c ∉ numeric_columns) :
    getCol ⟨df.cols, df.rows.map (rowCoerceAll numeric_columns)⟩ c = getCol df c := by
  unfold getCol
  simp only [List.map_map]
  exact List.map_congr_left (fun r _ => getField_rowCoerceAll_not_mem numeric_columns r h)

theorem validate_coerced (df : DataFrame)
    (hmiss : required_columns.filter (fun c => !df.cols.contains c) = [])
    (hac : (getCol df "Account_code").any Cell.isna = false)
    (han : (getCol df "Account_name").any Cell.isna = false) :
    validate_dataframe ⟨df.cols, df.rows.map (rowCoerceAll numeric_columns)⟩ = .ok true := by
  apply (validate_ok_iff _ true).2
  refine ⟨rfl, hmiss, ?_, ?_, ?_⟩
  · apply List.find?_eq_none.2
    intro col hcol hany
    rcases List.any_eq_true.1 hany with ⟨x, hx, hxna⟩
    unfold getCol at hx
    rcases List.mem_map.1 hx with ⟨r2, hr2, rfl⟩
    rcases List.mem_map.1 hr2 with ⟨r, _, rfl⟩
    obtain ⟨q, hget, _⟩ :=
      getField_of_uniform (uniformKey_rowCoerceAll_mem numeric_columns r hcol)
    rw [hget] at hxna
    simp [toNumericCell, Cell.isna] at hxna
  · rw [getCol_map_ne_numeric df (by decide)]
    exact hac
  · rw [getCol_map_ne_numeric df (by decide)]
    exact han

/-- **C8** (confirmed).  Validation-and-coercion is idempotent: whenever the
validate/coerce step of `read_financial_file` succeeds with a table `out`,
applying it to `out` again succeeds and returns `out` unchanged — a coerced
table is a fixed point of the step. -/
theorem validate_and_coerce_idempotent (df out : DataFrame)
    (h : validate_and_coerce df = .ok out) :
    validate_and_coerce out = .ok out := by
  unfold validate_and_coerce at h
  cases hv : validate_dataframe df with
  | error e => rw [hv] at h; cases h
  | ok b =>
    rw [hv] at h
    cases h
    obtain ⟨hb, hmiss, hnum, hac, han⟩ := (validate_ok_iff df b).1 hv
    have hcont := contains_of_filter_nil hmiss
    rw [coerce_numeric_eq df hcont]
    unfold validate_and_coerce
    rw [validate_coerced df hmiss hac han]
    show Except.ok (coerce_numeric ⟨df.cols, df.rows.map (rowCoerceAll numeric_columns)⟩)
      = Except.ok ⟨df.cols, df.rows.map (rowCoerceAll numeric_columns)⟩
    congr 1
    rw [coerce_numeric_eq ⟨df.cols, df.rows.map (rowCoerceAll numeric_columns)⟩ hcont]
    congr 1
    have hpoint : ∀ r ∈ df.rows.map (rowCoerceAll numeric_columns),
        rowCoerceAll numeric_columns r = r := by
      intro r hr
      rcases List.mem_map.1 hr with ⟨r0, _, rfl⟩
      exact rowCoerceAll_id numeric_columns _
        (fun c hc => uniformKey_rowCoerceAll_mem numeric_columns r0 hc)
    rw [List.map_congr_left hpoint, List.map_id']

theorem add_net_balance_rows (d : DataFrame) :
    (add_net_balance d).rows = d.rows.map (fun r =>
      setField r "net_balance"
        (cellSub (getField r "end_of_period_debit")
          (getField r "end_of_period_credit"))) := by
  unfold add_net_balance setCol getCol
  simp only [List.zipWith_map_left, List.zipWith_map_right, List.zipWith_same]

/-- **C10** (confirmed).  In every row of the table handed to the statement
generator — a validated/coerced table with the `net_balance` column added —
the derived `net_balance` value equals `end_of_period_debit` minus
`end_of_period_credit` for that row. -/
theorem net_balance_is_debit_minus_credit (df out : DataFrame) (r : Row)
    (h : validate_and_coerce df = .ok out)
    (hr : r ∈ (add_net_balance out).rows) :
    ∃ d c : Rat,
      getField r "end_of_period_debit" = Cell.num d ∧
      getField r "end_of_period_credit" = Cell.num c ∧
      getField r "net_balance" = Cell.num (d - c) := by
  unfold validate_and_coerce at h
  cases hv : validate_dataframe df with
  | error e => rw [hv] at h; cases h
  | ok b =>
    rw [hv] at h
    cases h
    obtain ⟨hb, hmiss, _, _, _⟩ := (validate_ok_iff df b).1 hv
    rw [coerce_numeric_eq df (contains_of_filter_nil hmiss), add_net_balance_rows] at hr
    simp only [List.map_map, List.mem_map, Function.comp] at hr
    rcases hr with ⟨r0, _, rfl⟩
    obtain ⟨qd, hgd, _⟩ := getField_of_uniform
      (uniformKey_rowCoerceAll_mem (c := "end_of_period_debit") numeric_columns r0 (by decide))
    obtain ⟨qc, hgc, _⟩ := getField_of_uniform
      (uniformKey_rowCoerceAll_mem (c := "end_of_period_credit") numeric_columns r0 (by decide))
    refine ⟨qd, qc, ?_, ?_, ?_⟩
    · rw [getField_setField_ne _ _ (by decide), hgd]
    · rw [getField_setField_ne _ _ (by decide), hgc]
    · rw [getField_setField_self, hgd, hgc]
      rfl

/-! ## Detection-path lemmas -/

theorem detect_format_fst (f : ByteStream) :
    (detect_format f).1 = detectBytes ((f.data.drop f.pos).take 4096) := rfl

theorem detect_format_snd (f : ByteStream) :
    (detect_format f).2 = ⟨f.data, 0⟩ := rfl

theorem utf8Decode_d0cf (l : List Nat) : utf8Decode (0xD0 :: 0xCF :: l) = none := by
  show utf8DecodeF (l.length + 1 + 1) (0xD0 :: 0xCF :: l) = none
  simp [utf8DecodeF, utf8Cont]

theorem utf8Decode_ascii_cons {b : Nat} (hb : b < 0x80) (l : List Nat) :
    utf8Decode (b :: l) = (utf8Decode l).map (Char.ofNat b :: ·) := by
  show utf8DecodeF (l.length + 1) (b :: l) = _
  simp [utf8DecodeF, utf8Decode, hb]

theorem pyStrip_cons_nonspace {c : Char} (h : pyIsSpace c = false) (xs : List Char) :
    pyStrip (c :: xs) = c :: rstripWhile pyIsSpace xs := by
  unfold pyStrip
  rw [List.dropWhile_cons, if_neg (by simp [h])]
  rw [rstripWhile]
  simp [h]

theorem fixedWidthCheck_ragged (cs : List Char)
    (h : ∃ la ∈ (splitOnChar '\n' cs).take 5, ∃ lb ∈ (splitOnChar '\n' cs).take 5,
      pyStrip la ≠ [] ∧ pyStrip lb ≠ [] ∧ la.length ≠ lb.length) :
    fixedWidthCheck cs = "unknown" := by
  obtain ⟨la, hla, lb, hlb, hsa, hsb, hne⟩ := h
  unfold fixedWidthCheck
  cases hsplit : (splitOnChar '\n' cs).take 5 with
  | nil => rw [hsplit] at hla; cases hla
  | cons l0 rest =>
    rw [hsplit] at hla hlb
    have hnall :
        ¬ (rest.all (fun l => decide (pyStrip l = []) || decide (l.length = l0.length)) = true) := by
      intro hall
      have key : ∀ l ∈ l0 :: rest, pyStrip l ≠ [] → l.length = l0.length := by
        intro l hl hstrip
        rcases List.mem_cons.1 hl with rfl | hl2
        · rfl
        · have := List.all_eq_true.1 hall l hl2
          simpa [hstrip] using this
      exact hne ((key la hla hsa).trans (key lb hlb hsb).symm)
    show (if (rest.all fun l => decide (pyStrip l = []) || decide (l.length = l0.length)) = true
        then "fixed-width" else "unknown") = "unknown"
    rw [if_neg hnall]

theorem detectBytes_text_fallthrough {pre : List Nat} {cs : List Char}
    (hdec : utf8Decode pre = some cs)
    (hjson : ("\x7b".toList.isPrefixOf (pyStrip cs) || "[".toList.isPrefixOf (pyStrip cs)) = true →
      json_loads (pyStrip cs) = none)
    (hxml : ("<?xml".toList.isPrefixOf (pyStrip cs) || "<".toList.isPrefixOf (pyStrip cs)) = true →
      xmlWellFormed cs = false)
    (hcsv : csvSniffs cs = false) :
    detectBytes pre = (if hasSpreadsheetMagic pre then "excel" else fixedWidthCheck cs) := by
  unfold detectBytes
  rw [hdec]
  have h1 : (("\x7b".toList.isPrefixOf (pyStrip cs) || "[".toList.isPrefixOf (pyStrip cs)) &&
      (json_loads (pyStrip cs)).isSome) = false := by
    cases hp : ("\x7b".toList.isPrefixOf (pyStrip cs) || "[".toList.isPrefixOf (pyStrip cs)) with
    | false => simp
    | true => simp [hjson hp]
  have h2 : (("<?xml".toList.isPrefixOf (pyStrip cs) || "<".toList.isPrefixOf (pyStrip cs)) &&
      xmlWellFormed cs) = false := by
    cases hp : ("<?xml".toList.isPrefixOf (pyStrip cs) || "<".toList.isPrefixOf (pyStrip cs)) with
    | false => simp
    | true => simp [hxml hp]
  simp only [h1, h2, hcsv, Bool.false_eq_true, if_false]

/-! ## Claim theorems -/

/-- **C1** (corrected): counterexample.  An extended-schema CSV upload whose
`end_of_period_debit` holds the text `N/A` is *not* coerced to `0`:
`read_financial_file` fails with the numeric-validation error, because
`validate_dataframe` runs before the clean-up loop ever coerces anything. -/
theorem na_cell_read_fails :
    read_financial_file ⟨naCellInput, 0⟩ "trial_balance.csv" =
      .error "Error processing file: Column end_of_period_debit must contain only numeric values" := by
  with_unfolding_all decide

/-- **C1** (corrected): amended claim.  For any table with the required
columns present, a declared numeric column containing a cell whose numeric
coercion fails (such as the text `N/A`) makes `validate_dataframe` fail
with a `"must contain only numeric values"` error — the cell is never
defaulted to `0`. -/
theorem nonnumeric_cell_fails_validation (df : DataFrame) (col : String)
    (hcol : col ∈ numeric_columns)
    (hmiss : required_columns.filter (fun c => !df.cols.contains c) = [])
    (hbad : (getCol df col).any (fun x => (toNumericCell x).isna) = true) :
    ∃ col2, validate_dataframe df =
      .error ("Column " ++ col2 ++ " must contain only numeric values") := by
  have hsome :
      (numeric_columns.find?
        (fun c => (getCol df c).any (fun x => (toNumericCell x).isna))).isSome :=
    List.find?_isSome.2 ⟨col, hcol, hbad⟩
  rcases Option.isSome_iff_exists.1 hsome with ⟨col2, hfind⟩
  refine ⟨col2, ?_⟩
  simp only [validate_dataframe]
  rw [hmiss, if_neg (by simp), hfind]

/-- Witness for `nonnumeric_cell_fails_validation` at the `N/A` table. -/
theorem nonnumeric_cell_fails_validation_witness :
    ("end_of_period_debit" ∈ numeric_columns ∧
     required_columns.filter (fun c => !naCellTable.cols.contains c) = [] ∧
     (getCol naCellTable "end_of_period_debit").any
       (fun x => (toNumericCell x).isna) = true) ∧
    ∃ col2, validate_dataframe naCellTable =
      .error ("Column " ++ col2 ++ " must contain only numeric values") :=
  ⟨⟨by decide, by with_unfolding_all decide, by with_unfolding_all decide⟩,
   nonnumeric_cell_fails_validation naCellTable "end_of_period_debit"
     (by decide) (by with_unfolding_all decide) (by with_unfolding_all decide)⟩

/-- **C2** (corrected): counterexample.  Reading the Scenario-A simple-schema
CSV does *not* succeed: the reader knows only the extended schema. -/
theorem simple_schema_read_fails :
    isError (read_financial_file ⟨simpleSchemaInput, 0⟩ "trial_balance.csv") = true := by
  with_unfolding_all decide

/-- **C2** (corrected): amended claim.  The simple-schema CSV parses fine as
delimited text (two rows, `Cash: Debit=100, Credit=0`; `Revenue: Debit=0,
Credit=100`), but the reader has no simple-schema mode: validation rejects
the table for missing every extended-schema column, and the read fails. -/
theorem simple_schema_parses_but_is_rejected :
    read_csv simpleSchemaInput = .ok simpleSchemaTable ∧
    read_financial_file ⟨simpleSchemaInput, 0⟩ "trial_balance.csv" =
      .error ("Error processing file: Missing required columns: " ++
        joinComma required_columns) := by
  constructor
  · with_unfolding_all decide
  · with_unfolding_all decide

/-- **C3** (corrected): counterexample.  Bytes beginning with the ZIP magic
`PK\x03\x04` are *not* always classified as a spreadsheet: the text-based
checks run first, and a UTF-8-decodable tail that sniffs as delimited text
wins — `PK\x03\x04a,b\nc,d\n` is classified `csv`. -/
theorem pk_magic_with_csv_tail_sniffs_csv :
    (detect_format ⟨pkThenCsvInput, 0⟩).1 = "csv" ∧
    (detect_format ⟨pkThenCsvInput, 0⟩).1 ≠ "excel" := by
  constructor
  · with_unfolding_all decide
  · with_unfolding_all decide

/-- **C3** (corrected): amended claim.  The legacy compound-binary magic
`D0 CF 11 E0` always yields the spreadsheet tag (its second byte can never
continue a UTF-8 sequence, so every text check is skipped); the ZIP magic
`PK\x03\x04` yields it provided the decoded prefix does not sniff as
delimited text (its bytes are printable ASCII, so only the CSV check can
fire before the magic check). -/
theorem magic_prefix_detection (rest : List Nat)
    (hsniff : ∀ cs, utf8Decode (([0x50, 0x4B, 0x03, 0x04] ++ rest).take 4096) = some cs →
      csvSniffs cs = false) :
    (detect_format ⟨[0xD0, 0xCF, 0x11, 0xE0] ++ rest, 0⟩).1 = "excel" ∧
    (detect_format ⟨[0x50, 0x4B, 0x03, 0x04] ++ rest, 0⟩).1 = "excel" := by
  have hpreD : ((([0xD0, 0xCF, 0x11, 0xE0] ++ rest).drop 0).take 4096)
      = 0xD0 :: 0xCF :: 0x11 :: 0xE0 :: rest.take 4092 := rfl
  have hpreP : ((([0x50, 0x4B, 0x03, 0x04] ++ rest).drop 0).take 4096)
      = 0x50 :: 0x4B :: 0x03 :: 0x04 :: rest.take 4092 := rfl
  have hpreP' : (([0x50, 0x4B, 0x03, 0x04] ++ rest).take 4096)
      = 0x50 :: 0x4B :: 0x03 :: 0x04 :: rest.take 4092 := rfl
  constructor
  · rw [detect_format_fst]
    show detectBytes ((([0xD0, 0xCF, 0x11, 0xE0] ++ rest).drop 0).take 4096) = "excel"
    rw [hpreD]
    unfold detectBytes
    rw [utf8Decode_d0cf]
    simp [hasSpreadsheetMagic, List.isPrefixOf]
  · cases hdec : utf8Decode (([0x50, 0x4B, 0x03, 0x04] ++ rest).take 4096) with
    | none =>
      rw [detect_format_fst]
      show detectBytes ((([0x50, 0x4B, 0x03, 0x04] ++ rest).drop 0).take 4096) = "excel"
      rw [hpreP]
      unfold detectBytes
      rw [hpreP'] at hdec
      rw [hdec]
      simp [hasSpreadsheetMagic, List.isPrefixOf]
    | some cs =>
      have hs := hsniff cs hdec
      have hdec' : utf8Decode (0x50 :: 0x4B :: 0x03 :: 0x04 :: rest.take 4092) = some cs := hdec
      rw [utf8Decode_ascii_cons (by decide), utf8Decode_ascii_cons (by decide),
        utf8Decode_ascii_cons (by decide), utf8Decode_ascii_cons (by decide)] at hdec'
      rcases Option.map_eq_some'.1 hdec' with ⟨cs1, hm1, hcs⟩
      rcases Option.map_eq_some'.1 hm1 with ⟨cs2, hm2, hcs1⟩
      rcases Option.map_eq_some'.1 hm2 with ⟨cs3, hm3, hcs2⟩
      rcases Option.map_eq_some'.1 hm3 with ⟨cs4, _, hcs3⟩
      subst hcs3
      subst hcs2
      subst hcs1
      subst hcs
      have hstrip := pyStrip_cons_nonspace (c := Char.ofNat 0x50) (by decide)
        (Char.ofNat 0x4B :: Char.ofNat 0x03 :: Char.ofNat 0x04 :: cs4)
      have c1 : ('{' == Char.ofNat 0x50) = false := by decide
      have c2 : ('[' == Char.ofNat 0x50) = false := by decide
      have c3 : ('<' == Char.ofNat 0x50) = false := by decide
      have hjf : (("\x7b".toList.isPrefixOf (pyStrip (Char.ofNat 0x50 :: Char.ofNat 0x4B ::
          Char.ofNat 0x03 :: Char.ofNat 0x04 :: cs4)) ||
          "[".toList.isPrefixOf (pyStrip (Char.ofNat 0x50 :: Char.ofNat 0x4B ::
          Char.ofNat 0x03 :: Char.ofNat 0x04 :: cs4)))) = false := by
        rw [hstrip]
        simp [List.isPrefixOf, show "\x7b".toList = ['{'] from rfl,
          show "[".toList = ['['] from rfl, c1, c2]
      have hxf : (("<?xml".toList.isPrefixOf (pyStrip (Char.ofNat 0x50 :: Char.ofNat 0x4B ::
          Char.ofNat 0x03 :: Char.ofNat 0x04 :: cs4)) ||
          "<".toList.isPrefixOf (pyStrip (Char.ofNat 0x50 :: Char.ofNat 0x4B ::
          Char.ofNat 0x03 :: Char.ofNat 0x04 :: cs4)))) = false := by
        rw [hstrip]
        simp [List.isPrefixOf, show "<?xml".toList = ['<', '?', 'x', 'm', 'l'] from rfl,
          show "<".toList = ['<'] from rfl, c3]
      have hfall := detectBytes_text_fallthrough hdec
        (fun hp => absurd hp (by rw [hjf]; exact Bool.false_ne_true))
        (fun hp => absurd hp (by rw [hxf]; exact Bool.false_ne_true)) hs
      rw [detect_format_fst]
      show detectBytes ((([0x50, 0x4B, 0x03, 0x04] ++ rest).drop 0).take 4096) = "excel"
      rw [List.drop_zero, hfall, hpreP']
      have hm : hasSpreadsheetMagic (0x50 :: 0x4B :: 0x03 :: 0x04 :: rest.take 4092) = true := by
        simp [hasSpreadsheetMagic, List.isPrefixOf]
      rw [hm]
      rfl

/-- Witness for `magic_prefix_detection` with a tail on which sniffing
finds no delimiter. -/
theorem magic_prefix_detection_witness :
    (detect_format ⟨[0xD0, 0xCF, 0x11, 0xE0] ++ [0x0A, 0x51, 0x0A], 0⟩).1 = "excel" ∧
    (detect_format ⟨[0x50, 0x4B, 0x03, 0x04] ++ [0x0A, 0x51, 0x0A], 0⟩).1 = "excel" :=
  magic_prefix_detection [0x0A, 0x51, 0x0A] (fun cs h => by
    have he : utf8Decode (([0x50, 0x4B, 0x03, 0x04] ++ [0x0A, 0x51, 0x0A]).take 4096)
        = some ['P', 'K', Char.ofNat 3, Char.ofNat 4, '\n', 'Q', '\n'] := by
      with_unfolding_all decide
    rw [he] at h
    cases h
    with_unfolding_all decide)

/-- **C4** (corrected): counterexample.  A well-formed XML document with
zero `<entry>` elements does *not* yield an empty table from the read:
the zero-row, zero-column frame fails column validation, so the read
fails. -/
theorem zero_entry_xml_read_fails :
    isError (read_financial_file ⟨zeroEntryXmlInput, 0⟩ "data.xml") = true := by
  with_unfolding_all decide

/-- **C4** (corrected): amended claim.  For any XML upload that parses with
no descendant `<entry>` element, `parse_xml` itself returns the empty
(zero-row, zero-column) table, and validation then rejects that table for
missing every required column — so the overall read fails rather than
producing an empty table. -/
theorem zero_entry_xml_empty_table_rejected (bs : List Nat) (root : XElem)
    (hparse : xmlFromBytes bs = some root)
    (hent : xmlEntries root bs.length = []) :
    parse_xml bs = .ok ⟨[], []⟩ ∧
    validate_dataframe ⟨[], []⟩ =
      .error ("Missing required columns: " ++ joinComma required_columns) := by
  constructor
  · unfold parse_xml
    rw [hparse]
    show (match (xmlEntries root bs.length).mapM xmlEntryRecord with
      | Except.error e => Except.error ("Error parsing XML file: " ++ e)
      | Except.ok records => Except.ok (dfFromRecords records)) = Except.ok ⟨[], []⟩
    rw [hent]
    rfl
  · with_unfolding_all decide

/-- Witness for `zero_entry_xml_empty_table_rejected` at `<data></data>`. -/
theorem zero_entry_xml_empty_table_rejected_witness :
    parse_xml zeroEntryXmlInput = .ok ⟨[], []⟩ ∧
    validate_dataframe ⟨[], []⟩ =
      .error ("Missing required columns: " ++ joinComma required_columns) :=
  zero_entry_xml_empty_table_rejected zeroEntryXmlInput (XElem.mk "data" none [])
    (by with_unfolding_all rfl) (by with_unfolding_all rfl)

/-- **C5** (confirmed).  A JSON upload whose `entries` array is empty reads
successfully into a zero-row table carrying every canonical
extended-schema column. -/
theorem empty_entries_json_zero_row_table :
    read_financial_file ⟨emptyEntriesJsonInput, 0⟩ "export.json" =
      .ok ⟨required_columns, []⟩ := by
  with_unfolding_all decide

/-- **C6** (code bug).  A row whose `Account_code` is the *empty string* is
not rejected: `validate_dataframe` only tests `isna`, which the empty
string passes, even though its own error message promises that
`Account_code cannot contain empty values`.  An XML upload whose entry
lacks `<account_code>` flows through the whole read and comes out as a
validated table with an empty-string identifier. -/
theorem empty_account_code_accepted :
    validate_dataframe ⟨required_columns, [emptyCodeRow]⟩ = .ok true ∧
    read_financial_file ⟨emptyCodeXmlInput, 0⟩ "data.xml" =
      .ok ⟨required_columns, [emptyCodeRow]⟩ ∧
    getField emptyCodeRow "Account_code" = Cell.str "" := by
  refine ⟨?_, ?_, ?_⟩
  · with_unfolding_all decide
  · with_unfolding_all decide
  · with_unfolding_all decide

/-- **C7** (confirmed).  For a text input on which no earlier sniffing rule
matched and whose first five lines include non-blank lines of differing
lengths, `detect_format` returns `unknown` and the read fails with the
unsupported-format error. -/
theorem ragged_text_unknown_and_read_fails (bs : List Nat) (cs : List Char) (fn : String)
    (hdec : utf8Decode (bs.take 4096) = some cs)
    (hjson : ("\x7b".toList.isPrefixOf (pyStrip cs) || "[".toList.isPrefixOf (pyStrip cs)) = true →
      json_loads (pyStrip cs) = none)
    (hxml : ("<?xml".toList.isPrefixOf (pyStrip cs) || "<".toList.isPrefixOf (pyStrip cs)) = true →
      xmlWellFormed cs = false)
    (hcsv : csvSniffs cs = false)
    (hmagic : hasSpreadsheetMagic (bs.take 4096) = false)
    (hlines : ∃ la ∈ (splitOnChar '\n' cs).take 5, ∃ lb ∈ (splitOnChar '\n' cs).take 5,
      pyStrip la ≠ [] ∧ pyStrip lb ≠ [] ∧ la.length ≠ lb.length) :
    (detect_format ⟨bs, 0⟩).1 = "unknown" ∧
    read_financial_file ⟨bs, 0⟩ fn =
      .error "Error processing file: Unsupported file format: unknown" := by
  have hdetect : (detect_format ⟨bs, 0⟩).1 = "unknown" := by
    rw [detect_format_fst]
    show detectBytes ((bs.drop 0).take 4096) = "unknown"
    rw [List.drop_zero, detectBytes_text_fallthrough hdec hjson hxml hcsv, hmagic]
    simp only [Bool.false_eq_true, if_false]
    exact fixedWidthCheck_ragged cs hlines
  refine ⟨hdetect, ?_⟩
  simp only [read_financial_file]
  rw [hdetect]
  rw [if_neg (by decide), if_neg (by decide), if_neg (by decide), if_neg (by decide),
    if_neg (by decide)]
  rfl

/-- Witness for `ragged_text_unknown_and_read_fails` at five lines of five
different lengths (Scenario E). -/
theorem ragged_text_unknown_and_read_fails_witness :
    (detect_format ⟨raggedLinesInput, 0⟩).1 = "unknown" ∧
    read_financial_file ⟨raggedLinesInput, 0⟩ "stmt.txt" =
      .error "Error processing file: Unsupported file format: unknown" :=
  ragged_text_unknown_and_read_fails raggedLinesInput
    "abc\nde\nf\nghij\nklmno".toList "stmt.txt"
    (by with_unfolding_all decide)
    (fun hp => absurd hp (by with_unfolding_all decide))
    (fun hp => absurd hp (by with_unfolding_all decide))
    (by with_unfolding_all decide)
    (by with_unfolding_all decide)
    ⟨"abc".toList, by with_unfolding_all decide,
     "de".toList, by with_unfolding_all decide,
     by with_unfolding_all decide, by with_unfolding_all decide,
     by with_unfolding_all decide⟩

/-- **C9** (corrected): counterexample.  `detect_format` does not leave the
read position unchanged for every input stream: it seeks to position `0`,
so a stream handed over at position 1 comes back at position 0. -/
theorem detect_format_moves_position :
    (detect_format ⟨[0x61], 1⟩).2.pos ≠ (ByteStream.mk [0x61] 1).pos := by
  with_unfolding_all decide

/-- **C9** (corrected): amended claim.  `detect_format` inspects only the
4096-byte window at the stream's read position — two streams agreeing on
that window get the same verdict — and afterwards *resets* the position to
`0` (the start), leaving the buffer unmutated.  The position is therefore
unchanged exactly when the stream arrived at its start, which is how
`read_financial_file` hands it over. -/
theorem detect_format_prefix_window_and_reset (f g : ByteStream)
    (h : (f.data.drop f.pos).take 4096 = (g.data.drop g.pos).take 4096) :
    (detect_format f).1 = (detect_format g).1 ∧
    (detect_format f).2 = ⟨f.data, 0⟩ := by
  constructor
  · rw [detect_format_fst, detect_format_fst, h]
  · exact detect_format_snd f

/-- Witness for `detect_format_prefix_window_and_reset`: a stream read from
position 1 and a stream over the remaining byte share their window. -/
theorem detect_format_prefix_window_and_reset_witness :
    ((⟨[0x61, 0x62], 1⟩ : ByteStream).data.drop 1).take 4096 =
      ((⟨[0x62], 0⟩ : ByteStream).data.drop 0).take 4096 ∧
    (detect_format ⟨[0x61, 0x62], 1⟩).1 = (detect_format ⟨[0x62], 0⟩).1 ∧
    (detect_format ⟨[0x61, 0x62], 1⟩).2 = ⟨[0x61, 0x62], 0⟩ :=
  ⟨by decide,
   detect_format_prefix_window_and_reset ⟨[0x61, 0x62], 1⟩ ⟨[0x62], 0⟩ (by decide)⟩

/-- Witness for `validate_and_coerce_idempotent` at a table whose
`opening_balance_debit` arrives as the string `"5"`. -/
theorem validate_and_coerce_idempotent_witness :
    validate_and_coerce coercibleTable = .ok coercibleTableOut ∧
    validate_and_coerce coercibleTableOut = .ok coercibleTableOut :=
  ⟨by with_unfolding_all decide,
   validate_and_coerce_idempotent coercibleTable coercibleTableOut
     (by with_unfolding_all decide)⟩

/-- Witness for `net_balance_is_debit_minus_credit` at `coercibleTable`. -/
theorem net_balance_is_debit_minus_credit_witness :
    (validate_and_coerce coercibleTable = .ok coercibleTableOut ∧
     coercibleNetRow ∈ (add_net_balance coercibleTableOut).rows) ∧
    ∃ d c : Rat,
      getField coercibleNetRow "end_of_period_debit" = Cell.num d ∧
      getField coercibleNetRow "end_of_period_credit" = Cell.num c ∧
      getField coercibleNetRow "net_balance" = Cell.num (d - c) :=
  ⟨⟨by with_unfolding_all decide, by with_unfolding_all decide⟩,
   net_balance_is_debit_minus_credit coercibleTable coercibleTableOut coercibleNetRow
     (by with_unfolding_all decide) (by with_unfolding_all decide)⟩

end TrialBalance
